import Mathlib

/-!
Shallow embedding of BootNVMDriver_STM32L0x3.c (STM32L053 bootloader NVM driver).

The driver mutates a memory-mapped NVM controller (the FLASH peripheral of the
STM32L0x3) through four registers: PEKEYR and PRGKEYR (write-only key ports),
PECR (control: lock and mode bits) and SR (status: busy, end-of-operation and
error flags).  Each C function is a straight line of register and memory
writes, so we embed it as a list of primitive actions (one action per source
statement), and interpret that list over an explicit controller state.

Register bit layout used by the source:
  PECR bit 0  = PELOCK   (data lock)
  PECR bit 1  = PRGLOCK  (program lock)
  PECR bit 3  = PROG     (flash target select)
  PECR bit 9  = ERASE    (erase mode select)
  PECR bit 10 = FPRG     (half-page programming mode)
  PECR bit 16 = EOPIE    (end-of-operation interrupt enable)
  PECR bit 17 = ERRIE    (error interrupt enable)
  SR   bit 0  = BSY      (busy)
  SR   bit 1  = EOP      (end of operation, cleared by writing 1)

The flash array semantics follow the source's own documentation: a word write
lands as the bitwise OR of the old and the new value (comments at lines
109, 122, 182, 200 of the source), hence the erased ("empty") state of a word
is 0, the only value for which an OR write stores the new value exactly.  This
matches the STM32L0 NVM, whose erased flash reads all-zeros and whose
NOTZEROERR error fires on programming a non-zero (non-empty) word, as the
source's comments at lines 52, 118 and 119 describe.
-/

/-- Hardware key constants written to the key ports (source lines 39-40, 79-84,
136-141, 206-211). -/
def PEKEY1 : Nat := 0x89ABCDEF

/-- Second half of the PECR unlock key pair. -/
def PEKEY2 : Nat := 0x02030405

/-- First half of the program-memory unlock key pair. -/
def PRGKEY1 : Nat := 0x8C9DAEBF

/-- Second half of the program-memory unlock key pair. -/
def PRGKEY2 : Nat := 0x13141516

/-- Bytes per flash page: 8 rows of 4 words, 128 bytes (source line 65). -/
def pageSize : Nat := 128

/-- Bytes per half page: 16 words of 4 bytes (source line 180). -/
def halfPageSize : Nat := 64

/-- Base address of the page containing a byte address. -/
def pageBase (addr : Nat) : Nat := addr / pageSize * pageSize

/-- Base address of the half page containing a byte address. -/
def halfPageBase (addr : Nat) : Nat := addr / halfPageSize * halfPageSize

/-- Primitive actions of the driver: one constructor per kind of source
statement.  The two busy-wait loops of the completion sequence are single
actions here; their loop semantics is modelled separately by pollWhile. -/
inductive Act : Type
  | writePEKEYR (v : Nat)   -- FLASH->PEKEYR = v
  | writePRGKEYR (v : Nat)  -- FLASH->PRGKEYR = v
  | pecrSet (b : Nat)       -- FLASH->PECR |= (1 << b)
  | pecrClear (b : Nat)     -- FLASH->PECR &= ~(1 << b)
  | srClear (b : Nat)       -- FLASH->SR |= (1 << b)  (write 1 to clear flag b)
  | memWrite (addr v : Nat) -- *(uint32_t*)addr = v
  | waitBusyClear           -- while ((FLASH->SR & 1) == 1);
  | waitEOPSet              -- while (!((FLASH->SR & 2) == 2));
  | disableIRQ              -- __disable_irq()
  | enableIRQ               -- __enable_irq()
deriving DecidableEq

/-- NVM controller and flash-array state.  pekeyArmed and prgkeyArmed are the
hardware key-sequence state machines: armed after the first correct key,
unlocking on the second.  latch holds the words accumulated by the half-page
programming buffer; mem maps byte addresses to the 32-bit word stored there. -/
structure NVMState : Type where
  pelock : Bool
  prglock : Bool
  pekeyArmed : Bool
  prgkeyArmed : Bool
  erase : Bool
  prog : Bool
  fprg : Bool
  eopie : Bool
  errie : Bool
  eop : Bool
  latch : List Nat
  mem : Nat → Nat

/-- Page erase effect on the flash array: every word of the page containing
addr reads as the erased value 0 afterwards (see the header comment: the
STM32L0 NVM erases to all-zeros, which is what makes the OR-semantics of
programming store an exact value on an erased word). -/
def eraseWrite (mem : Nat → Nat) (addr : Nat) : Nat → Nat :=
  fun a => if pageBase addr ≤ a ∧ a < pageBase addr + pageSize then 0 else mem a

/-- Committing the half-page latch: word k of the latch lands (OR-wise) at the
k-th word of the half page containing the written address. -/
def commitHalfPage (mem : Nat → Nat) (addr : Nat) (latch : List Nat) : Nat → Nat :=
  fun a =>
    if halfPageBase addr ≤ a ∧ a < halfPageBase addr + halfPageSize ∧
        (a - halfPageBase addr) % 4 = 0 then
      mem a ||| latch.getD ((a - halfPageBase addr) / 4) 0
    else mem a

/-- One step of the controller: the effect of a single primitive action on the
state.  PECR is write-protected while PELOCK is set; program and erase
operations additionally require PRGLOCK clear.  Setting PELOCK also sets
PRGLOCK: on the STM32L0 NVM interface the program lock is set by hardware
whenever the data lock engages (PRGLOCK can only be cleared through PRGKEYR
while PELOCK is clear), so the single PELOCK write of each operation re-locks
both scopes.  A key port receives the two halves of its key pair in order;
any other value disarms the sequence.  Wait actions do not change the
controller state (their loop behaviour is modelled by pollWhile below). -/
def applyAct (s : NVMState) (a : Act) : NVMState :=
  match a with
  | .writePEKEYR v =>
      if s.pelock then
        if v = PEKEY1 then { s with pekeyArmed := true }
        else if v = PEKEY2 then
          if s.pekeyArmed then { s with pelock := false, pekeyArmed := false }
          else { s with pekeyArmed := false }
        else { s with pekeyArmed := false }
      else s
  | .writePRGKEYR v =>
      if s.pelock then s
      else if s.prglock then
        if v = PRGKEY1 then { s with prgkeyArmed := true }
        else if v = PRGKEY2 then
          if s.prgkeyArmed then { s with prglock := false, prgkeyArmed := false }
          else { s with prgkeyArmed := false }
        else { s with prgkeyArmed := false }
      else s
  | .pecrSet b =>
      if s.pelock then s
      else if b = 0 then
        { s with pelock := true, prglock := true,
                 pekeyArmed := false, prgkeyArmed := false }
      else if b = 3 then { s with prog := true }
      else if b = 9 then { s with erase := true }
      else if b = 10 then { s with fprg := true }
      else if b = 17 then { s with errie := true }
      else s
  | .pecrClear b =>
      if s.pelock then s
      else if b = 3 then { s with prog := false }
      else if b = 10 then { s with fprg := false }
      else if b = 16 then { s with eopie := false }
      else s
  | .srClear b => if b = 1 then { s with eop := false } else s
  | .memWrite addr v =>
      if s.pelock ∨ s.prglock then s
      else if s.erase ∧ s.prog then
        { s with mem := eraseWrite s.mem addr, eop := true }
      else if s.fprg ∧ s.prog then
        if (s.latch ++ [v]).length = 16 then
          { s with mem := commitHalfPage s.mem addr (s.latch ++ [v]),
                   latch := [], eop := true }
        else { s with latch := s.latch ++ [v] }
      else
        { s with mem := fun a => if a = addr then s.mem a ||| v else s.mem a,
                 eop := true }
  | .waitBusyClear => s
  | .waitEOPSet => s
  | .disableIRQ => s
  | .enableIRQ => s

/-- Running a trace of actions from a state. -/
def runTrace (s : NVMState) (l : List Act) : NVMState := l.foldl applyAct s

/-- NVM_Init (source lines 23-61): unlock PECR, disable the end-of-operation
interrupt, enable the error interrupt, re-set PELOCK. -/
def NVM_Init : List Act :=
  [Act.writePEKEYR PEKEY1, Act.writePEKEYR PEKEY2,
   Act.pecrClear 16, Act.pecrSet 17, Act.pecrSet 0]

/-- FLASHErase_Page (source lines 64-104): unlock PECR and program memory,
select erase mode and the flash target, write any value to the page address,
run the completion wait, clear EOP, re-set PELOCK. -/
def FLASHErase_Page (flash_page_addr : Nat) : List Act :=
  [Act.writePEKEYR PEKEY1, Act.writePEKEYR PEKEY2,
   Act.writePRGKEYR PRGKEY1, Act.writePRGKEYR PRGKEY2,
   Act.pecrSet 9, Act.pecrSet 3,
   Act.memWrite flash_page_addr 0,
   Act.waitBusyClear, Act.waitEOPSet, Act.srClear 1,
   Act.pecrSet 0]

/-- FLASHUpd_Word (source lines 107-166): unlock PECR and program memory,
write the word to the target address, run the completion wait, clear EOP,
re-set PELOCK.  No mode bits are touched. -/
def FLASHUpd_Word (flash_word_addr updated_flash_value : Nat) : List Act :=
  [Act.writePEKEYR PEKEY1, Act.writePEKEYR PEKEY2,
   Act.writePRGKEYR PRGKEY1, Act.writePRGKEYR PRGKEY2,
   Act.memWrite flash_word_addr updated_flash_value,
   Act.waitBusyClear, Act.waitEOPSet, Act.srClear 1,
   Act.pecrSet 0]

/-- The sixteen burst writes of the half-page loop (source lines 231-235):
iteration i writes buffer element 32*page + 16*halfPage + i to the unchanged
base address.  Rx_Message_buf is owned by the caller and is a parameter buf
here. -/
def burstActs (base full_page_cnt_in_buf half_page_cnt_in_page : Nat)
    (buf : Nat → Nat) : List Act :=
  (List.range 16).map
    (fun i => Act.memWrite base
      (buf (32 * full_page_cnt_in_buf + 16 * half_page_cnt_in_page + i)))

/-- FLASHUpd_HalfPage (source lines 172-249): unlock PECR and program memory,
select flash programming and half-page mode, disable interrupts, issue the
sixteen burst writes, run the completion wait, clear EOP, clear the two mode
bits, re-set PELOCK, re-enable interrupts. -/
def FLASHUpd_HalfPage (base full_page_cnt_in_buf half_page_cnt_in_page : Nat)
    (buf : Nat → Nat) : List Act :=
  [Act.writePEKEYR PEKEY1, Act.writePEKEYR PEKEY2,
   Act.writePRGKEYR PRGKEY1, Act.writePRGKEYR PRGKEY2,
   Act.pecrSet 3, Act.pecrSet 10,
   Act.disableIRQ] ++
  burstActs base full_page_cnt_in_buf half_page_cnt_in_page buf ++
  [Act.waitBusyClear, Act.waitEOPSet, Act.srClear 1,
   Act.pecrClear 3, Act.pecrClear 10, Act.pecrSet 0,
   Act.enableIRQ]

/-- The memory writes a trace issues, as (destination, value) pairs in order. -/
def memWrites (l : List Act) : List (Nat × Nat) :=
  l.filterMap (fun a =>
    match a with
    | .memWrite addr v => some (addr, v)
    | _ => none)

/-- Payload-free classification of an action, used to state ordering
properties of a trace uniformly in its variable payloads.  pecrSet b maps to
100+b, pecrClear b to 200+b, srClear b to 500+b; key writes, memory writes,
waits and the interrupt toggles get fixed codes. -/
def actTag (a : Act) : Nat :=
  match a with
  | .writePEKEYR _ => 10
  | .writePRGKEYR _ => 20
  | .pecrSet b => 100 + b
  | .pecrClear b => 200 + b
  | .srClear b => 500 + b
  | .memWrite _ _ => 300
  | .waitBusyClear => 400
  | .waitEOPSet => 401
  | .disableIRQ => 600
  | .enableIRQ => 601

/-- Interrupts are masked while executing position i of a trace exactly when a
disable occurred strictly before i with no enable in between; with the single
disable/enable pair of this driver that is: some disable before i and no
enable before i. -/
def irqOffBefore (tg : List Nat) (i : Nat) : Bool :=
  ((tg.take i).contains 600) && !((tg.take i).contains 601)

/-- BSY flag test on a raw SR word: the loop condition (SR & 1) == 1 of source
lines 96, 159 and 237. -/
def busySet (w : Nat) : Bool := w % 2 = 1

/-- EOP flag test on a raw SR word: the condition (SR & 2) == 2 of source
lines 98, 160 and 238. -/
def eopSet (w : Nat) : Bool := w / 2 % 2 = 1

/-- Fueled busy-poll loop: keeps reading the SR stream at successive times
while the predicate holds of the value read, and returns the time of the first
read at which it fails.  This is the shallow embedding of the C loop
while (p(FLASH->SR)); with sr t the value of the t-th volatile read. -/
def pollWhile (p : Nat → Bool) (sr : Nat → Nat) : Nat → Nat → Option Nat
  | 0, _ => none
  | fuel + 1, t => if p (sr t) then pollWhile p sr fuel (t + 1) else some t

/-- The two-phase completion wait shared by every mutating operation (source
lines 96-98, 159-160, 237-238): first poll while BSY is set, then poll while
EOP is not set; returns the time of the read that observed EOP set. -/
def completionWait (sr : Nat → Nat) (fuel : Nat) : Option Nat :=
  match pollWhile busySet sr fuel 0 with
  | none => none
  | some t => pollWhile (fun w => !(eopSet w)) sr fuel (t + 1)

/-- The while(1) at source line 259: a loop that never exits, embedded with
fuel; it returns none at every fuel. -/
def haltLoop : Nat → Option Unit
  | 0 => none
  | fuel + 1 => haltLoop fuel

/-- Mask of the error status flags cleared by the fault handler: the value
0x32F << 8 written to SR at source line 258. -/
def errFlagMask : Nat := 0x32F <<< 8

/-- Effect of the fault handler's status write FLASH->SR |= (0x32F << 8)
(source line 258) on the SR word: the error flag bits are rc_w1, so writing 1
clears them; the bits outside the mask keep their value. -/
def FLASH_IRQHandler_srEffect (sr : Nat) : Nat :=
  sr &&& (0xFFFFFFFF ^^^ errFlagMask)

/-- Checks that a tagged trace runs the completion sequence at position j:
the busy wait (tag 400), then the EOP wait (tag 401), then the EOP clear
(tag 501) contiguously, and that the trace has exactly one busy wait, one EOP
wait and one EOP clear, so this is the only wait the trace performs. -/
def completionSeqAt (tg : List Nat) (j : Nat) : Bool :=
  (tg.getD j 0 == 400) && (tg.getD (j + 1) 0 == 401) &&
  (tg.getD (j + 2) 0 == 501) &&
  (tg.count 400 == 1) && (tg.count 401 == 1) && (tg.count 501 == 1)

/-- A concrete controller state with a given flash-array content: both locks
set, key sequences disarmed, no mode bit set, interrupt enables off, latch
empty.  Used to evaluate the operations on concrete inputs. -/
def stateWithMem (m : Nat → Nat) : NVMState :=
  { pelock := true, prglock := true, pekeyArmed := false, prgkeyArmed := false,
    erase := false, prog := false, fprg := false, eopie := false,
    errie := false, eop := false, latch := [], mem := m }

/-! Helper lemmas about the interpreter and the poll loops. -/

/-- Control-register projection of a state: every field except the flash
array, the half-page latch and the EOP flag. -/
def ctrl (s : NVMState) :
    Bool × Bool × Bool × Bool × Bool × Bool × Bool × Bool × Bool :=
  (s.pelock, s.prglock, s.pekeyArmed, s.prgkeyArmed, s.erase, s.prog, s.fprg,
   s.eopie, s.errie)

lemma applyAct_memWrite_ctrl (s : NVMState) (a v : Nat) :
    ctrl (applyAct s (Act.memWrite a v)) = ctrl s := by
  simp only [applyAct]
  split_ifs <;> rfl

lemma runTrace_cons (s : NVMState) (a : Act) (l : List Act) :
    runTrace s (a :: l) = runTrace (applyAct s a) l := rfl

lemma runTrace_append (s : NVMState) (l1 l2 : List Act) :
    runTrace s (l1 ++ l2) = runTrace (runTrace s l1) l2 := by
  simp [runTrace, List.foldl_append]

lemma runTrace_memWrites_ctrl (l : List Nat) (f g : Nat → Nat) (s : NVMState) :
    ctrl (runTrace s (l.map (fun i => Act.memWrite (f i) (g i)))) = ctrl s := by
  induction l generalizing s with
  | nil => rfl
  | cons x xs ih =>
      rw [List.map_cons, runTrace_cons, ih, applyAct_memWrite_ctrl]

lemma burstActs_eq_map (b p h : Nat) (buf : Nat → Nat) :
    burstActs b p h buf =
      (List.range 16).map (fun i => Act.memWrite ((fun _ => b) i)
        ((fun i => buf (32 * p + 16 * h + i)) i)) := rfl

/-- After the unlock-and-mode prefix of the half-page operation, the data lock
is clear, whatever the starting state. -/
lemma halfPage_prefix_pelock (s : NVMState) :
    (runTrace s [Act.writePEKEYR PEKEY1, Act.writePEKEYR PEKEY2,
      Act.writePRGKEYR PRGKEY1, Act.writePRGKEYR PRGKEY2,
      Act.pecrSet 3, Act.pecrSet 10, Act.disableIRQ]).pelock = false := by
  by_cases h1 : s.pelock <;> by_cases h2 : s.prglock <;>
    simp [runTrace, applyAct, h1, h2, PEKEY1, PEKEY2, PRGKEY1, PRGKEY2]

/-- If the poll loop exits at time u, the exit read is at or after the start
and observed the loop condition false. -/
lemma pollWhile_some (p : Nat → Bool) (sr : Nat → Nat) :
    ∀ fuel t u, pollWhile p sr fuel t = some u → t ≤ u ∧ p (sr u) = false := by
  intro fuel
  induction fuel with
  | zero => intro t u h; simp [pollWhile] at h
  | succ n ih =>
      intro t u h
      simp only [pollWhile] at h
      by_cases hc : p (sr t)
      · rw [if_pos hc] at h
        have hr := ih (t + 1) u h
        exact ⟨by omega, hr.2⟩
      · rw [if_neg hc] at h
        cases h
        exact ⟨Nat.le_refl t, by simp [hc]⟩

/-- A poll loop whose condition holds at every read never exits. -/
lemma pollWhile_none (p : Nat → Bool) (sr : Nat → Nat)
    (hall : ∀ t, p (sr t) = true) :
    ∀ fuel t, pollWhile p sr fuel t = none := by
  intro fuel
  induction fuel with
  | zero => intro t; rfl
  | succ n ih => intro t; simp only [pollWhile, hall t, if_true]; exact ih (t + 1)

/-- Shared computation: the final control bits after FLASHErase_Page, from any
starting state: erase and flash-target mode bits set, and both locks re-set
by the closing PELOCK write (which re-engages PRGLOCK as well). -/
lemma erase_final_bits (s : NVMState) (a : Nat) :
    (runTrace s (FLASHErase_Page a)).erase = true ∧
    (runTrace s (FLASHErase_Page a)).prog = true ∧
    (runTrace s (FLASHErase_Page a)).pelock = true ∧
    (runTrace s (FLASHErase_Page a)).prglock = true := by
  by_cases h1 : s.pelock <;> by_cases h2 : s.prglock <;>
    simp [runTrace, applyAct, FLASHErase_Page, h1, h2,
      PEKEY1, PEKEY2, PRGKEY1, PRGKEY2]

/-- Shared computation: the final control bits after FLASHUpd_HalfPage, from
any starting state: both mode bits cleared again, data lock re-set. -/
lemma halfPage_final_bits (s : NVMState) (b p h : Nat) (buf : Nat → Nat) :
    (runTrace s (FLASHUpd_HalfPage b p h buf)).prog = false ∧
    (runTrace s (FLASHUpd_HalfPage b p h buf)).fprg = false ∧
    (runTrace s (FLASHUpd_HalfPage b p h buf)).pelock = true := by
  rw [FLASHUpd_HalfPage, runTrace_append, runTrace_append, burstActs_eq_map]
  set s1 := runTrace s [Act.writePEKEYR PEKEY1, Act.writePEKEYR PEKEY2,
    Act.writePRGKEYR PRGKEY1, Act.writePRGKEYR PRGKEY2,
    Act.pecrSet 3, Act.pecrSet 10, Act.disableIRQ] with hs1
  have h1 : s1.pelock = false := halfPage_prefix_pelock s
  have hc := runTrace_memWrites_ctrl (List.range 16) (fun _ => b)
    (fun i => buf (32 * p + 16 * h + i)) s1
  set s2 := runTrace s1 ((List.range 16).map _) with hs2
  have h2 : s2.pelock = false := by
    have hx : s2.pelock = s1.pelock := congrArg (fun t => t.1) hc
    rw [hx, h1]
  simp [runTrace, applyAct, h2]

/-! Claim theorems. -/

/-- C1: for every page index, half-page index and base address,
FLASHUpd_HalfPage reads exactly the 16 consecutive source-buffer words at
offsets 32*p + 16*h + i for i in [0,16), and issues all 16 writes to the same
base destination address, never advancing the destination between writes. -/
theorem c1_halfPage_burst_reads_and_fixed_destination
    (base p h : Nat) (buf : Nat → Nat) :
    memWrites (FLASHUpd_HalfPage base p h buf) =
      (List.range 16).map (fun i => (base, buf (32 * p + 16 * h + i))) ∧
    (memWrites (FLASHUpd_HalfPage base p h buf)).length = 16 ∧
    ∀ pr ∈ memWrites (FLASHUpd_HalfPage base p h buf), pr.1 = base := by
  refine ⟨rfl, rfl, ?_⟩
  intro pr hpr
  have hm : memWrites (FLASHUpd_HalfPage base p h buf) =
      (List.range 16).map (fun i => (base, buf (32 * p + 16 * h + i))) := rfl
  rw [hm] at hpr
  obtain ⟨i, _, rfl⟩ := List.mem_map.mp hpr
  rfl

/-- C2: every mutating operation runs the completion wait as the contiguous
sequence busy-wait, EOP-wait, EOP-clear (and no other wait); clearing the EOP
flag resets it in the controller state; and the wait loop semantics never
terminates before a read observes the busy flag clear and never returns
success except at a read that observes the completion flag set. -/
theorem c2_completion_wait_two_phase :
    (∀ a : Nat, completionSeqAt ((FLASHErase_Page a).map actTag) 7 = true) ∧
    (∀ a v : Nat, completionSeqAt ((FLASHUpd_Word a v).map actTag) 5 = true) ∧
    (∀ (b p h : Nat) (buf : Nat → Nat),
      completionSeqAt ((FLASHUpd_HalfPage b p h buf).map actTag) 23 = true) ∧
    (∀ s : NVMState, (applyAct s (Act.srClear 1)).eop = false) ∧
    (∀ (sr : Nat → Nat) (fuel u : Nat), completionWait sr fuel = some u →
      eopSet (sr u) = true ∧ ∃ t, t < u ∧ busySet (sr t) = false) := by
  refine ⟨fun a => rfl, fun a v => rfl, fun b p h buf => rfl, fun s => rfl, ?_⟩
  intro sr fuel u h
  unfold completionWait at h
  cases heq : pollWhile busySet sr fuel 0 with
  | none => rw [heq] at h; cases h
  | some t =>
      rw [heq] at h
      have h1 := pollWhile_some busySet sr fuel 0 t heq
      have h2 := pollWhile_some (fun w => !(eopSet w)) sr fuel (t + 1) u h
      refine ⟨?_, t, by omega, h1.2⟩
      have := h2.2
      simpa using this

/-- Witness for C2: a concrete SR read stream that is busy at time 0 and done
afterwards makes the completion wait return at time 2, where the completion
flag is observed set and a strictly earlier read observed busy clear. -/
theorem c2_completion_wait_two_phase_witness :
    completionWait (fun t => if t = 0 then 1 else 2) 4 = some 2 ∧
    (eopSet ((fun t : Nat => if t = 0 then 1 else 2) 2) = true ∧
     ∃ t, t < 2 ∧ busySet ((fun t : Nat => if t = 0 then 1 else 2) t) = false) :=
  ⟨by decide,
   c2_completion_wait_two_phase.2.2.2.2
     (fun t => if t = 0 then 1 else 2) 4 2 (by decide)⟩

/-- C3: on the single exit path of each mutating operation the data lock
(PELOCK) is re-set before returning, and for FLASHErase_Page both the data
lock and the program lock read set on return: the closing PELOCK write also
re-engages PRGLOCK. -/
theorem c3_relock_on_every_exit :
    (∀ (s : NVMState) (a : Nat),
      (runTrace s (FLASHErase_Page a)).pelock = true ∧
      (runTrace s (FLASHErase_Page a)).prglock = true) ∧
    (∀ (s : NVMState) (a v : Nat),
      (runTrace s (FLASHUpd_Word a v)).pelock = true) ∧
    (∀ (s : NVMState) (b p h : Nat) (buf : Nat → Nat),
      (runTrace s (FLASHUpd_HalfPage b p h buf)).pelock = true) := by
  refine ⟨fun s a => ⟨(erase_final_bits s a).2.2.1, (erase_final_bits s a).2.2.2⟩,
    fun s a v => ?_, fun s b p h buf => (halfPage_final_bits s b p h buf).2.2⟩
  rw [show FLASHUpd_Word a v =
      [Act.writePEKEYR PEKEY1, Act.writePEKEYR PEKEY2,
       Act.writePRGKEYR PRGKEY1, Act.writePRGKEYR PRGKEY2] ++
      [Act.memWrite a v] ++
      [Act.waitBusyClear, Act.waitEOPSet, Act.srClear 1, Act.pecrSet 0]
    from rfl, runTrace_append, runTrace_append]
  set s1 := runTrace s [Act.writePEKEYR PEKEY1, Act.writePEKEYR PEKEY2,
    Act.writePRGKEYR PRGKEY1, Act.writePRGKEYR PRGKEY2] with hs1
  have h1 : s1.pelock = false := by
    rw [hs1]
    by_cases hp : s.pelock <;> by_cases hq : s.prglock <;>
      simp [runTrace, applyAct, hp, hq, PEKEY1, PEKEY2, PRGKEY1, PRGKEY2]
  have h2 : (runTrace s1 [Act.memWrite a v]).pelock = false := by
    have hx : (applyAct s1 (Act.memWrite a v)).pelock = s1.pelock :=
      congrArg (fun t => t.1) (applyAct_memWrite_ctrl s1 a v)
    rw [show runTrace s1 [Act.memWrite a v] = applyAct s1 (Act.memWrite a v)
      from rfl, hx, h1]
  obtain ⟨s2, hs2eq, h3⟩ :
      ∃ s2, runTrace s1 [Act.memWrite a v] = s2 ∧ s2.pelock = false :=
    ⟨_, rfl, h2⟩
  rw [hs2eq]
  simp [runTrace, applyAct, h3]

/-- C4 counterexample: the claim says an erased page reads all-ones, but after
FLASHErase_Page on a page-aligned address the first word of the page reads the
erased value 0, not 0xFFFFFFFF (the STM32L0 NVM erases to zero; the source
documents programming as a bitwise OR onto an empty word). -/
theorem c4_erase_all_ones_counterexample :
    (runTrace (stateWithMem (fun _ => 0x12345678))
      (FLASHErase_Page 128)).mem 128 ≠ 0xFFFFFFFF := by decide

/-- C4 (amended): for every page-aligned address, after FLASHErase_Page every
word of that page reads as the erased value, which is all-zeros on this
device, not all-ones. -/
theorem c4_erase_page_all_zeros (s : NVMState) (addr off : Nat)
    (hal : addr % 128 = 0) (hoff : off < 32) :
    (runTrace s (FLASHErase_Page addr)).mem (addr + 4 * off) = 0 := by
  have hc1 : pageBase addr ≤ addr + 4 * off := by
    unfold pageBase pageSize; omega
  have hc2 : addr + 4 * off < pageBase addr + pageSize := by
    unfold pageBase pageSize; omega
  by_cases h1 : s.pelock <;> by_cases h2 : s.prglock <;>
    simp [runTrace, applyAct, FLASHErase_Page, h1, h2,
      PEKEY1, PEKEY2, PRGKEY1, PRGKEY2, eraseWrite, hc1, hc2]

/-- Witness for C4 (amended): erasing the page at address 128 from a state
whose array holds 7 everywhere leaves word 3 of that page reading 0. -/
theorem c4_erase_page_all_zeros_witness :
    (128 % 128 = 0 ∧ 3 < 32) ∧
    (runTrace (stateWithMem (fun _ => 7))
      (FLASHErase_Page 128)).mem (128 + 4 * 3) = 0 :=
  ⟨by decide,
   c4_erase_page_all_zeros (stateWithMem (fun _ => 7)) 128 3 (by decide)
     (by decide)⟩

/-- C5 counterexample: the claim says a word whose current content is
all-ones is erased and is overwritten exactly; but programming is a bitwise
OR, so onto content 0xFFFFFFFF the value 0x0F0F0F0F does not land: the word
still reads 0xFFFFFFFF. -/
theorem c5_program_onto_ones_counterexample :
    (runTrace (stateWithMem (fun _ => 0xFFFFFFFF))
      (FLASHUpd_Word 200 0x0F0F0F0F)).mem 200 ≠ 0x0F0F0F0F := by decide

/-- C5 (amended): with the controller in its normal mode (erase and half-page
mode bits clear), FLASHUpd_Word stores the bitwise OR of the old and new
contents; in particular onto an erased word, whose content is 0 on this
device, it stores exactly the new value. -/
theorem c5_word_program_or_semantics (s : NVMState) (addr v : Nat)
    (he : s.erase = false) (hf : s.fprg = false) :
    (runTrace s (FLASHUpd_Word addr v)).mem addr = s.mem addr ||| v ∧
    (s.mem addr = 0 → (runTrace s (FLASHUpd_Word addr v)).mem addr = v) := by
  have hor : (runTrace s (FLASHUpd_Word addr v)).mem addr = s.mem addr ||| v := by
    by_cases h1 : s.pelock <;> by_cases h2 : s.prglock <;>
      simp [runTrace, applyAct, FLASHUpd_Word, h1, h2, he, hf,
        PEKEY1, PEKEY2, PRGKEY1, PRGKEY2]
  exact ⟨hor, fun hz => by rw [hor, hz]; simp⟩

/-- Witness for C5 (amended): programming 7 at an erased (zero) word of the
concrete state stores exactly 7. -/
theorem c5_word_program_or_semantics_witness :
    ((stateWithMem (fun _ => 0)).erase = false ∧
     (stateWithMem (fun _ => 0)).fprg = false ∧
     (stateWithMem (fun _ => 0)).mem 100 = 0) ∧
    (runTrace (stateWithMem (fun _ => 0)) (FLASHUpd_Word 100 7)).mem 100 = 7 :=
  ⟨⟨rfl, rfl, rfl⟩,
   (c5_word_program_or_semantics (stateWithMem (fun _ => 0)) 100 7 rfl rfl).2 rfl⟩

/-- C6: in FLASHUpd_HalfPage the interrupt disable precedes every burst
write, and every burst write, both completion waits, the EOP clear, both
mode-bit clears and the re-lock execute with interrupts masked; the interrupt
re-enable is the final action of the trace and occurs nowhere earlier. -/
theorem c6_irq_critical_section (b p h : Nat) (buf : Nat → Nat) :
    (∀ i, i < 30 →
      ((FLASHUpd_HalfPage b p h buf).map actTag).getD i 0 ∈
          ([300, 400, 401, 501, 203, 210, 100] : List Nat) →
        irqOffBefore ((FLASHUpd_HalfPage b p h buf).map actTag) i = true) ∧
    ((FLASHUpd_HalfPage b p h buf).map actTag).getD 29 0 = 601 ∧
    ((FLASHUpd_HalfPage b p h buf).map actTag).length = 30 ∧
    (∀ i, i < 29 →
      ((FLASHUpd_HalfPage b p h buf).map actTag).getD i 0 ≠ 601) := by
  have htags : (FLASHUpd_HalfPage b p h buf).map actTag =
      [10, 10, 20, 20, 103, 110, 600,
       300, 300, 300, 300, 300, 300, 300, 300,
       300, 300, 300, 300, 300, 300, 300, 300,
       400, 401, 501, 203, 210, 100, 601] := rfl
  rw [htags]
  decide

/-- Witness for C6: position 10 of the concrete half-page trace is a burst
write and executes with interrupts masked. -/
theorem c6_irq_critical_section_witness :
    (10 < 30 ∧
      ((FLASHUpd_HalfPage 0 0 0 (fun _ => 0)).map actTag).getD 10 0 ∈
        ([300, 400, 401, 501, 203, 210, 100] : List Nat)) ∧
    irqOffBefore ((FLASHUpd_HalfPage 0 0 0 (fun _ => 0)).map actTag) 10 = true :=
  ⟨⟨by decide, by decide⟩,
   (c6_irq_critical_section 0 0 0 (fun _ => 0)).1 10 (by decide) (by decide)⟩

/-- C7: the fault handler's status write leaves every error flag of the mask
0x32F shifted to the error field cleared, and the handler's closing loop never
terminates at any fuel, so the handler never returns to the faulted
operation. -/
theorem c7_fault_handler_clears_and_halts :
    (∀ sr : Nat, FLASH_IRQHandler_srEffect sr &&& errFlagMask = 0) ∧
    (∀ fuel, haltLoop fuel = none) := by
  constructor
  · intro sr
    have hz : (0xFFFFFFFF ^^^ errFlagMask) &&& errFlagMask = 0 := by decide
    rw [FLASH_IRQHandler_srEffect, Nat.land_assoc, hz]
    simp
  · intro fuel
    induction fuel with
    | zero => rfl
    | succ n ih => exact ih

/-- C8: every mutating operation contains both busy-wait actions, and the
completion wait has no timeout: against hardware that never clears the busy
flag, or never raises the completion flag, it returns none at every fuel,
which is the fueled reading of a loop that runs forever. -/
theorem c8_busy_wait_no_timeout :
    (∀ a : Nat, Act.waitBusyClear ∈ FLASHErase_Page a ∧
      Act.waitEOPSet ∈ FLASHErase_Page a) ∧
    (∀ a v : Nat, Act.waitBusyClear ∈ FLASHUpd_Word a v ∧
      Act.waitEOPSet ∈ FLASHUpd_Word a v) ∧
    (∀ (b p h : Nat) (buf : Nat → Nat),
      Act.waitBusyClear ∈ FLASHUpd_HalfPage b p h buf ∧
      Act.waitEOPSet ∈ FLASHUpd_HalfPage b p h buf) ∧
    (∀ sr : Nat → Nat, (∀ t, busySet (sr t) = true) →
      ∀ fuel, completionWait sr fuel = none) ∧
    (∀ sr : Nat → Nat, (∀ t, eopSet (sr t) = false) →
      ∀ fuel, completionWait sr fuel = none) := by
  refine ⟨fun a => ⟨by simp [FLASHErase_Page], by simp [FLASHErase_Page]⟩,
    fun a v => ⟨by simp [FLASHUpd_Word], by simp [FLASHUpd_Word]⟩,
    fun b p h buf => ⟨by simp [FLASHUpd_HalfPage], by simp [FLASHUpd_HalfPage]⟩,
    ?_, ?_⟩
  · intro sr hall fuel
    unfold completionWait
    rw [pollWhile_none busySet sr hall fuel 0]
  · intro sr hall fuel
    unfold completionWait
    cases heq : pollWhile busySet sr fuel 0 with
    | none => rfl
    | some t =>
        exact pollWhile_none (fun w => !(eopSet w)) sr
          (fun t' => by simp [hall t']) fuel (t + 1)

/-- Witness for C8: with hardware stuck busy (SR always 1), and with hardware
that never raises EOP (SR always 0), the completion wait returns none. -/
theorem c8_busy_wait_no_timeout_witness :
    completionWait (fun _ => 1) 5 = none ∧
    completionWait (fun _ => 0) 5 = none :=
  ⟨c8_busy_wait_no_timeout.2.2.2.1 (fun _ => 1) (fun t => by simp [busySet]) 5,
   c8_busy_wait_no_timeout.2.2.2.2 (fun _ => 0) (fun t => by simp [eopSet]) 5⟩

/-- C9: NVM_Init is idempotent on the controller state: running it twice from
any state equals running it once, and one run leaves the end-of-operation
interrupt disabled, the error interrupt enabled and the data lock set. -/
theorem c9_init_idempotent (s : NVMState) :
    runTrace (runTrace s NVM_Init) NVM_Init = runTrace s NVM_Init ∧
    (runTrace s NVM_Init).eopie = false ∧
    (runTrace s NVM_Init).errie = true ∧
    (runTrace s NVM_Init).pelock = true := by
  by_cases h1 : s.pelock <;>
    simp [runTrace, applyAct, NVM_Init, h1, PEKEY1, PEKEY2]

/-- C10: after FLASHErase_Page returns, the erase-select bit (PECR bit 9) and
the flash-target bit (PECR bit 3) it set are still set, whereas
FLASHUpd_HalfPage clears both of its mode bits (PECR bits 3 and 10) before
re-locking and returning. -/
theorem c10_mode_bits_after_return :
    (∀ (s : NVMState) (a : Nat),
      (runTrace s (FLASHErase_Page a)).erase = true ∧
      (runTrace s (FLASHErase_Page a)).prog = true) ∧
    (∀ (s : NVMState) (b p h : Nat) (buf : Nat → Nat),
      (runTrace s (FLASHUpd_HalfPage b p h buf)).prog = false ∧
      (runTrace s (FLASHUpd_HalfPage b p h buf)).fprg = false) :=
  ⟨fun s a => ⟨(erase_final_bits s a).1, (erase_final_bits s a).2.1⟩,
   fun s b p h buf => ⟨(halfPage_final_bits s b p h buf).1,
     (halfPage_final_bits s b p h buf).2.1⟩⟩
